import Mathlib

/-!
Shallow embedding of `src/models/dictionary_tree.py` (class `DictionaryTree`).

The Python class stores a trie as a nested `dict`: every key is either a
symbol string (whose value is a nested dict) or the reserved terminator key
`'-1'` (whose value is a list of entry IDs).  Python dicts are modelled as
association lists that preserve insertion order, which is exactly the Python
dict iteration/update semantics: updating an existing key keeps its position,
inserting a new key appends at the end.  Entry IDs are non-empty strings or
integers.  Python's dynamic typing of the tree values is captured by the
`TVal` sum; Python runtime errors (`AttributeError`, `TypeError`, `KeyError`)
and `DictionaryTreeException` raise sites are captured by the `Err` type, and
every fallible method returns `Except Err`.
-/

namespace DictTree

/-- A dictionary entry identifier: Python allows a string or an `int` here
(`DictionaryTree.__is_valid_entry_id`). -/
inductive EntryID where
  | s : String → EntryID
  | i : Int → EntryID
deriving DecidableEq, Repr

/-- One error value per distinct raise site of the source.  The first group
models the `DictionaryTreeException` raises; `attrError`, `typeError` and
`keyError` model the corresponding uncaught Python builtin exceptions. -/
inductive Err where
  | invalidEntries
  | invalidTranslations
  | invalidEntry
  | invalidEntryId
  | emptyIndex
  | invalidSequence
  | invalidMatchMode
  | emptyTerm
  | unsupportedLanguage
  | emptyFileName
  | attrError
  | typeError
  | keyError
deriving DecidableEq, Repr

/-- A value stored in the nested tree dict: either a nested dict (assoc list
from symbol strings to values) or a list of entry IDs (the value of the
reserved terminator key). -/
inductive TVal where
  | dict : List (String × TVal) → TVal
  | list : List EntryID → TVal
deriving Repr

/-- The nested dictionary of symbol sequences (`DictionaryTree.tree`). -/
abbrev Dict := List (String × TVal)

/-- Key for a terminating node (`DictionaryTree.terminator = '-1'`). -/
def terminator : String := "-1"

/-- `d.get(k, None)` on a Python dict modelled as an ordered assoc list. -/
def alget {κ α : Type} [DecidableEq κ] : List (κ × α) → κ → Option α
  | [], _ => none
  | (k, v) :: rest, key => if k = key then some v else alget rest key

/-- `d[k] = v` on a Python dict: replace in place when the key exists,
append at the end otherwise. -/
def alset {κ α : Type} [DecidableEq κ] : List (κ × α) → κ → α → List (κ × α)
  | [], key, v => [(key, v)]
  | (k, w) :: rest, key, v =>
      if k = key then (key, v) :: rest else (k, w) :: alset rest key v

/-- Python `key in d` on a dict. -/
def alhas {κ α : Type} [DecidableEq κ] (d : List (κ × α)) (k : κ) : Bool :=
  (alget d k).isSome

/-- A translation value for one language: Python stores arbitrary JSON here,
and `__search_translations` only treats `str` values; every non-string shape
is collapsed into `other`. -/
inductive TrVal where
  | s : String → TrVal
  | other : TrVal
deriving DecidableEq, Repr

/-- One value of the `translations` dict: a dict with a `word` key (list of
symbol strings) and a `translations` key (dict from language code to value). -/
structure Rec where
  word : List String
  translations : List (String × TrVal)
deriving DecidableEq, Repr

/-- The state of a `DictionaryTree` instance: the four data attributes the
methods read and write (`tree`, `translations`, `languages`, `lowercase`). -/
structure DT where
  tree : Dict
  translations : List (EntryID × Rec)
  languages : List String
  lowercase : Bool

/-- `DictionaryTree.__initialise` on a fresh instance (`__init__`). -/
def init (lowercase : Bool) : DT :=
  { tree := [], translations := [], languages := [], lowercase := lowercase }

/-- `DictionaryTree.__initialise` called on an existing instance. -/
def initialise (st : DT) : DT := init st.lowercase

/-- Python `str.lower()`, applied characterwise over the string's character
list. -/
def lowerS (s : String) : String := String.mk (s.data.map Char.toLower)

/-- `[s.lower() for s in sequence] if self.lowercase else sequence`. -/
def caseFold (st : DT) (sequence : List String) : List String :=
  if st.lowercase then sequence.map lowerS else sequence

/-- Python `sequence[n:i]` for `n ≤ i`. -/
def pySlice {α : Type} (l : List α) (n i : Nat) : List α :=
  (l.drop n).take (i - n)

/-- `DictionaryTree.__is_valid_entry_id`: a non-empty string or an integer. -/
def is_valid_entry_id : EntryID → Bool
  | .s str => str ≠ ""
  | .i _ => true

/-- Python `str(entry_id)`. -/
def strId : EntryID → EntryID
  | .s str => .s str
  | .i n => .s (toString n)

/-- `DictionaryTree.__is_populated`: both `tree` and `translations` must be
non-empty. -/
def is_populated (st : DT) : Bool :=
  if st.tree.isEmpty then false
  else if st.translations.isEmpty then false
  else true

/-- The loop of `DictionaryTree.__get_sub_tree`: walk the nested dict along
`keys`; a missing key returns a fresh empty dict `{}`, and calling `.get` on
a list value raises `AttributeError`. -/
def get_sub_tree_go (cur : TVal) (keys : List String) : Except Err TVal :=
  match keys with
  | [] => .ok cur
  | k :: rest =>
    match cur with
    | .dict d =>
      match alget d k with
      | none => .ok (.dict [])
      | some v => get_sub_tree_go v rest
    | .list _ => .error .attrError

/-- `DictionaryTree.__get_sub_tree`. -/
def get_sub_tree (tree : Dict) (key_list : List String) : Except Err TVal :=
  get_sub_tree_go (.dict tree) key_list

/-- Functional counterpart of Python's in-place mutation `sub_d[k] = v` where
`sub_d` is the nested dict reached from the root along `path`: rebuild the
tree with the node at `path` updated.  When the path is broken the Python code
was mutating the fresh `{}` that `__get_sub_tree` returned, so the mutation is
lost and the tree is unchanged; the `_ => d` branch reproduces exactly that. -/
def setAtPath (d : Dict) (path : List String) (k : String) (v : TVal) : Dict :=
  match path with
  | [] => alset d k v
  | p :: ps =>
    match alget d p with
    | some (.dict sub) => alset d p (.dict (setAtPath sub ps k v))
    | _ => d

/-- The loop of `DictionaryTree.add_entry`, with the tree threaded through
explicitly (Python mutates nested dicts in place through aliases, which the
`setAtPath` rebuild reproduces).  `key_list` accumulates the symbols walked so
far; at each symbol the code re-walks the tree with `__get_sub_tree`.  A list
value encountered where a dict is expected triggers the Python `TypeError` /
`AttributeError` of the corresponding operation (`sub_d[symbol] = ...` on a
list, `list.append` on a dict). -/
def add_entry_go (entry_id : EntryID) :
    List String → List String → Dict → Except Err Dict
  | [], _, tree => .ok tree
  | symbol :: rest, key_list, tree => do
    let sub_d ← get_sub_tree tree key_list
    match rest with
    | _ :: _ =>
      -- `i < len(entry) - 1`: create a bare nested dict when absent
      match sub_d with
      | .dict d =>
        if (alget d symbol).isSome then
          add_entry_go entry_id rest (key_list ++ [symbol]) tree
        else
          add_entry_go entry_id rest (key_list ++ [symbol])
            (setAtPath tree key_list symbol (.dict []))
      | .list l =>
        -- Python `symbol not in sub_d` on a list is element membership;
        -- the subsequent `sub_d[symbol] = {}` on a list raises TypeError
        if l.contains (.s symbol) then
          add_entry_go entry_id rest (key_list ++ [symbol]) tree
        else .error .typeError
    | [] =>
      -- last element of entry
      match sub_d with
      | .dict d =>
        match alget d symbol with
        | none =>
          .ok (setAtPath tree key_list symbol
                (.dict [(terminator, .list [entry_id])]))
        | some (.dict inner) =>
          match alget inner terminator with
          | some (.list ids) =>
            .ok (setAtPath tree (key_list ++ [symbol]) terminator
                  (.list (ids ++ [entry_id])))
          | some (.dict _) =>
            -- `.append` on a dict raises AttributeError
            .error .attrError
          | none =>
            .ok (setAtPath tree (key_list ++ [symbol]) terminator
                  (.list [entry_id]))
        | some (.list _) =>
          -- indexing a list with the terminator string raises TypeError
          .error .typeError
      | .list l =>
        -- either `sub_d[symbol] = ...` or `sub_d[symbol][...]` on a list:
        -- TypeError in both branches
        if l.contains (.s symbol) then .error .typeError
        else .error .typeError

/-- `DictionaryTree.add_entry`: validate, case-fold, then walk/create one node
per symbol, appending `entry_id` at the final node's terminator list. -/
def add_entry (st : DT) (entry : List String) (entry_id : EntryID) :
    Except Err DT :=
  if entry.isEmpty then .error .invalidEntry
  else if !(is_valid_entry_id entry_id) then .error .invalidEntryId
  else do
    let e := caseFold st entry
    let t ← add_entry_go entry_id e [] st.tree
    .ok { st with tree := t }

/-- `DictionaryTree.has_tree_entry`.  In the source, every control path of the
loop body (lines 281–302) ends in a `return` statement, so the loop never
reaches a second iteration: the result is computed from the first symbol of
the (case-folded) sequence alone.  The translation makes that control flow
explicit.  The first component of a successful result is the raw value found
under the terminator key (`sub_tree[self.terminator]`), which in a well-formed
tree is always an ID list. -/
def has_tree_entry (st : DT) (sequence : List String) :
    Except Err (TVal × String) :=
  if !(is_populated st) then .error .emptyIndex
  else
    match sequence with
    | [] => .error .invalidSequence
    | s0 :: _ =>
      let item := if st.lowercase then lowerS s0 else s0
      match alget st.tree item with
      | none =>
        -- first symbol not found: return the terminator sentinel
        .ok (.list [], terminator)
      | some sub_tree =>
        match sub_tree with
        | .dict d =>
          match alget d terminator with
          | none => .ok (.list [], item)
          | some v => .ok (v, item)
        | .list l =>
          -- Python `self.terminator in sub_tree` on a list is element
          -- membership; indexing the list with a string raises TypeError
          if l.contains (.s terminator) then .error .typeError
          else .ok (.list [], item)

/-- Python `len` on a tree value (`len(entry_ids)`): length of a list, number
of keys of a dict. -/
def tvalLen : TVal → Nat
  | .dict d => d.length
  | .list l => l.length

/-- Python `tuple(entry_ids)`: a list yields its elements, a dict yields its
keys. -/
def tvalToIds : TVal → List EntryID
  | .dict d => d.map (fun kv => .s kv.1)
  | .list l => l

/-- The `(n, i)` pairs visited by the nested loops of
`__get_sequence_entries`: `n` in `range(0, len)`, `i` in `range(n+1, len+1)`,
in loop order. -/
def seqWindows (len : Nat) : List (Nat × Nat) :=
  ((List.range len).map fun n =>
    (List.range (len - n)).map fun k => (n, n + 1 + k)).flatten

/-- The body of `DictionaryTree.__get_sequence_entries`, iterating over the
window list in loop order and keeping the windows whose
`has_tree_entry` result carries a non-empty ID list. -/
def get_sequence_entries_go (st : DT) (sequence : List String) :
    List (Nat × Nat) → Except Err (List (List String × (Nat × Nat) × List EntryID))
  | [] => .ok []
  | (n, i) :: rest => do
    let r ← has_tree_entry st (pySlice sequence n i)
    let tail ← get_sequence_entries_go st sequence rest
    if 0 < tvalLen r.1 then
      .ok ((pySlice sequence n i, (n, i - 1), tvalToIds r.1) :: tail)
    else .ok tail

/-- `DictionaryTree.__get_sequence_entries`: sliding window of variable
length; records `(tuple(sequence[n:i]), (n, i-1), tuple(entry_ids))` for every
window whose lookup returns a non-empty ID list. -/
def get_sequence_entries (st : DT) (sequence : List String) :
    Except Err (List (List String × (Nat × Nat) × List EntryID)) :=
  get_sequence_entries_go st sequence (seqWindows sequence.length)

/-- `DictionaryTree.get_entry`.  Note the source's asymmetry: the validity
check and the final access go through `str(entry_id)`, while the membership
test `entry_id in self.translations` uses the raw id.  `some r` models a found
record, `none` models the literal `{}` the source returns when absent; an
access whose key is absent after `str` conversion raises `KeyError`. -/
def get_entry (st : DT) (entry_id : EntryID) : Except Err (Option Rec) :=
  if !(is_valid_entry_id (strId entry_id)) then .error .invalidEntryId
  else if st.translations.isEmpty then .error .invalidTranslations
  else if alhas st.translations entry_id then
    match alget st.translations (strId entry_id) with
    | some r => .ok (some r)
    | none => .error .keyError
  else .ok none

/-- The flattening loop of `DictionaryTree.get_entries_in_sequence`: one
result row `(span, entry_id, get_entry(entry_id))` per entry ID of each
recorded window. -/
def flatten_entries (st : DT) :
    List (List String × (Nat × Nat) × List EntryID) →
    Except Err (List ((Nat × Nat) × EntryID × Option Rec))
  | [] => .ok []
  | (_, span, ids) :: rest =>
    if 0 < ids.length then do
      let rows ← ids.mapM (fun id => do
        let r ← get_entry st id
        pure (span, id, r))
      let tail ← flatten_entries st rest
      .ok (rows ++ tail)
    else flatten_entries st rest

/-- `DictionaryTree.get_entries_in_sequence`: validate, case-fold, run the
sliding-window search, then flatten each match into one row per entry ID. -/
def get_entries_in_sequence (st : DT) (sequence : List String) :
    Except Err (List ((Nat × Nat) × EntryID × Option Rec)) :=
  if !(is_populated st) then .error .emptyIndex
  else if sequence.isEmpty then .error .invalidSequence
  else do
    let seq := caseFold st sequence
    let entries ← get_sequence_entries st seq
    flatten_entries st entries

/-- The loop of `DictionaryTree.__search_words` over the translation records.
The three `if match == ...` tests of the source are sequential and
independent; each appends `key` when its comparison holds.  `seq` is the
already case-folded query. -/
def search_words_go (seq : List String) (mtch : String) :
    List (EntryID × Rec) → List EntryID
  | [] => []
  | (key, value) :: rest =>
    let n := seq.length
    let word := value.word.map lowerS
    let e1 := if mtch = "exact" ∧ seq = word then [key] else []
    let e2 := if mtch = "starts_with" ∧ seq = word.take n then [key] else []
    let e3 := if mtch = "contains" ∧
        ((List.range (word.length + 1 - n)).any
          fun i => seq = (word.drop i).take n) then [key] else []
    e1 ++ e2 ++ e3 ++ search_words_go seq mtch rest

/-- `DictionaryTree.__search_words`: case-folds the query unconditionally and
scans every record's case-folded `word`. -/
def search_words (st : DT) (sequence : List String) (mtch : String) :
    List EntryID :=
  search_words_go (sequence.map lowerS) mtch st.translations

/-- `DictionaryTree.get_entries_containing_sequence`: validate, search, then
map each found key through `get_entry`. -/
def get_entries_containing_sequence (st : DT) (sequence : List String)
    (mtch : String) : Except Err (List (Option Rec)) :=
  if !(is_populated st) then .error .emptyIndex
  else if sequence.isEmpty then .error .invalidSequence
  else if !(mtch = "exact" ∨ mtch = "starts_with" ∨ mtch = "contains") then
    .error .invalidMatchMode
  else
    (search_words st sequence mtch).mapM (get_entry st)

/-- Python `needle in hay` on strings: contiguous substring containment. -/
def strIn (needle hay : String) : Bool :=
  (List.range (hay.toList.length + 1)).any
    fun i => needle.toList.isPrefixOf (hay.toList.drop i)

/-- The loop of `DictionaryTree.__search_translations`: a record whose value
for `lang` is a string is kept when it contains `term` case-insensitively;
non-string values are skipped; a record with no value for `lang` raises
`KeyError` (`value['translations'][lang]`). -/
def search_translations_go (term lang : String) :
    List (EntryID × Rec) → Except Err (List Rec)
  | [] => .ok []
  | (_, value) :: rest =>
    match alget value.translations lang with
    | none => .error .keyError
    | some (.s str) => do
      let tail ← search_translations_go term lang rest
      if strIn (lowerS term) (lowerS str) then .ok (value :: tail)
      else .ok tail
    | some .other => search_translations_go term lang rest

/-- `DictionaryTree.__search_translations`. -/
def search_translations (st : DT) (term lang : String) :
    Except Err (List Rec) :=
  search_translations_go term lang st.translations

/-- `DictionaryTree.get_glyph_words`: validate population, non-empty term and
supported language, then run the translation search. -/
def get_glyph_words (st : DT) (term : String) (lang : String) :
    Except Err (List Rec) :=
  if !(is_populated st) then .error .emptyIndex
  else if term.length = 0 then .error .emptyTerm
  else if !(st.languages.contains lang) then .error .unsupportedLanguage
  else search_translations st term lang

/-- `DictionaryTree.set_translations`: validate the dict is non-empty, derive
the supported languages from the key set of the first record's `translations`
dict (`list(translations.keys())[0]` is the first inserted key, which the
assoc-list head models), then replace the stored translations. -/
def set_translations (st : DT) (translations : List (EntryID × Rec)) :
    Except Err DT :=
  match translations with
  | [] => .error .invalidTranslations
  | (k0, _) :: _ =>
    match alget translations k0 with
    | some r0 =>
      .ok { st with
            languages := r0.translations.map Prod.fst,
            translations := translations }
    | none => .error .keyError

/-- The entry loop of `DictionaryTree.populate`: each entry is added with
`add_entry`; `AttributeError` (and `ValueError`, which the typed model cannot
produce) is caught and skipped, every other exception propagates. -/
def populate_go : List (EntryID × List String) → DT → Except Err DT
  | [], st => .ok st
  | (entry_id, entry) :: rest, st =>
    match add_entry st entry entry_id with
    | .ok st1 => populate_go rest st1
    | .error .attrError => populate_go rest st
    | .error e => .error e

/-- `DictionaryTree.populate`: validate both parameters, reset the instance,
then add every entry and install the translations. -/
def populate (st : DT) (entries : List (EntryID × List String))
    (translations : List (EntryID × Rec)) : Except Err DT :=
  if entries.isEmpty then .error .invalidEntries
  else if translations.isEmpty then .error .invalidTranslations
  else do
    let st1 ← populate_go entries (initialise st)
    set_translations st1 translations

/-- The document `DictionaryTree.serialize` writes: exactly the `tree` and
`translations` attributes under their two top-level keys. -/
structure Document where
  tree : Dict
  translations : List (EntryID × Rec)

/-- `DictionaryTree.serialize`, with the file system abstracted away: an empty
file name raises, otherwise the serialized document is produced. -/
def serialize (st : DT) (file_name : String) : Except Err Document :=
  if file_name.length = 0 then .error .emptyFileName
  else .ok { tree := st.tree, translations := st.translations }

/-- The effect of `json.dump` followed by `json.load` on the document, for the
data shapes this class stores: strings, arrays and nested objects survive
unchanged, but every non-string dict key is converted to its string form, so
integer entry-id keys of `translations` come back as strings (ids inside
terminator arrays are JSON numbers and stay integers). -/
def jsonRoundTrip (doc : Document) : Document :=
  { tree := doc.tree,
    translations := doc.translations.map fun kv => (strId kv.1, kv.2) }

/-- `DictionaryTree.deserialize`, with the file system abstracted away: both
top-level keys of the document replace the instance's `tree` and
`translations`.  The `languages` attribute is not touched. -/
def deserialize (st : DT) (doc : Document) : DT :=
  { st with tree := doc.tree, translations := doc.translations }

/-! ### General helper lemmas -/

instance exceptDecEq {ε α : Type} [DecidableEq ε] [DecidableEq α] :
    DecidableEq (Except ε α) := fun x y =>
  match x, y with
  | .ok a, .ok b =>
      if h : a = b then isTrue (by rw [h]) else isFalse (by simp [h])
  | .error e, .error f =>
      if h : e = f then isTrue (by rw [h]) else isFalse (by simp [h])
  | .ok _, .error _ => isFalse (by simp)
  | .error _, .ok _ => isFalse (by simp)

theorem strLength_ne_zero {s : String} (h : s ≠ "") : s.length ≠ 0 := by
  intro h0
  exact h (String.ext (by simpa [String.length] using List.length_eq_zero.mp h0))

theorem mem_ite_singleton {α : Type} {c : Prop} [Decidable c] {k key : α} :
    key ∈ (if c then [k] else []) ↔ c ∧ key = k := by
  split <;> simp_all

/-- The sliding-window membership test of `__search_words` in `contains` mode
is exactly contiguous-subsequence (infix) containment. -/
theorem window_any_iff_subseq {α : Type} [DecidableEq α] (a b : List α) :
    ((List.range (b.length + 1 - a.length)).any
      fun i => decide (a = (b.drop i).take a.length)) = true ↔ a <:+: b := by
  simp only [List.any_eq_true, List.mem_range, decide_eq_true_eq]
  constructor
  · rintro ⟨i, _, ha⟩
    exact (List.prefix_iff_eq_take.mpr ha).isInfix.trans
      (List.drop_suffix i b).isInfix
  · rintro ⟨s, t, rfl⟩
    refine ⟨s.length, by simp [List.length_append]; omega, ?_⟩
    rw [List.append_assoc, List.drop_left, List.take_left]

/-- Python substring containment is infix containment of character lists. -/
theorem strIn_iff_subseq (needle hay : String) :
    strIn needle hay = true ↔ needle.data <:+: hay.data := by
  simp only [strIn, List.any_eq_true, List.mem_range, String.toList,
    List.isPrefixOf_iff_prefix]
  constructor
  · rintro ⟨i, _, ha⟩
    exact ha.isInfix.trans (List.drop_suffix i hay.data).isInfix
  · rintro ⟨s, t, h⟩
    refine ⟨s.length, by rw [← h]; simp [List.length_append]; omega, ?_⟩
    rw [← h, List.append_assoc, List.drop_left]
    exact ⟨t, rfl⟩

theorem mem_search_words_exact {seq : List String}
    {tr : List (EntryID × Rec)} {key : EntryID} :
    key ∈ search_words_go seq "exact" tr ↔
      ∃ r, (key, r) ∈ tr ∧ seq = r.word.map lowerS := by
  induction tr with
  | nil => simp [search_words_go]
  | cons kv rest ih =>
    obtain ⟨k, v⟩ := kv
    simp only [search_words_go, List.mem_append, mem_ite_singleton, ih,
      List.mem_cons, Prod.mk.injEq, String.reduceEq, false_and, if_false,
      List.not_mem_nil, false_or, true_and, List.mem_nil_iff]
    aesop

theorem mem_search_words_starts {seq : List String}
    {tr : List (EntryID × Rec)} {key : EntryID} :
    key ∈ search_words_go seq "starts_with" tr ↔
      ∃ r, (key, r) ∈ tr ∧ seq = (r.word.map lowerS).take seq.length := by
  induction tr with
  | nil => simp [search_words_go]
  | cons kv rest ih =>
    obtain ⟨k, v⟩ := kv
    simp only [search_words_go, List.mem_append, mem_ite_singleton, ih,
      List.mem_cons, Prod.mk.injEq, String.reduceEq, false_and, if_false,
      List.not_mem_nil, false_or, true_and, List.mem_nil_iff]
    constructor
    · rintro ((⟨h2, rfl⟩ | h) | ⟨r, hr, hc⟩)
      · exact ⟨v, Or.inl ⟨rfl, rfl⟩, h2⟩
      · exact absurd h not_false
      · exact ⟨r, Or.inr hr, hc⟩
    · rintro ⟨r, (⟨rfl, rfl⟩ | hr), hc⟩
      · exact Or.inl (Or.inl ⟨hc, rfl⟩)
      · exact Or.inr ⟨r, hr, hc⟩

theorem mem_search_words_contains {seq : List String}
    {tr : List (EntryID × Rec)} {key : EntryID} :
    key ∈ search_words_go seq "contains" tr ↔
      ∃ r, (key, r) ∈ tr ∧ seq <:+: r.word.map lowerS := by
  induction tr with
  | nil => simp [search_words_go]
  | cons kv rest ih =>
    obtain ⟨k, v⟩ := kv
    simp only [search_words_go, List.mem_append, mem_ite_singleton, ih,
      List.mem_cons, Prod.mk.injEq, String.reduceEq, false_and, if_false,
      List.not_mem_nil, false_or, true_and, List.mem_nil_iff,
      window_any_iff_subseq]
    aesop

theorem search_translations_go_eq {term lang : String}
    {l : List (EntryID × Rec)}
    (h : ∀ kv ∈ l, (alget kv.2.translations lang).isSome = true) :
    search_translations_go term lang l = .ok (l.filterMap fun kv =>
      match alget kv.2.translations lang with
      | some (TrVal.s str) =>
          if strIn (lowerS term) (lowerS str) then some kv.2 else none
      | _ => none) := by
  induction l with
  | nil => simp [search_translations_go]
  | cons kv rest ih =>
    obtain ⟨k, v⟩ := kv
    have hh := h (k, v) (List.mem_cons_self _ _)
    obtain ⟨w, hw⟩ := Option.isSome_iff_exists.mp hh
    have ih' := ih (fun x hx => h x (List.mem_cons_of_mem _ hx))
    cases w with
    | s str =>
      simp only [search_translations_go, hw, ih', List.filterMap_cons]
      cases hs : strIn (lowerS term) (lowerS str) <;>
        simp [hs, Bind.bind, Except.bind]
    | other =>
      simp only [search_translations_go, hw, ih', List.filterMap_cons]

theorem gse_go_ok_nil {st : DT} {seq : List String}
    {pairs : List (Nat × Nat)}
    (h : ∀ p ∈ pairs,
      (has_tree_entry st (pySlice seq p.1 p.2)).map (fun r => tvalLen r.1) =
        .ok 0) :
    get_sequence_entries_go st seq pairs = .ok [] := by
  induction pairs with
  | nil => rfl
  | cons p rest ih =>
    obtain ⟨n, i⟩ := p
    have hp := h (n, i) (List.mem_cons_self _ _)
    have ih' := ih (fun x hx => h x (List.mem_cons_of_mem _ hx))
    cases hr : has_tree_entry st (pySlice seq n i) with
    | error e => rw [hr] at hp; simp [Except.map] at hp
    | ok r =>
      rw [hr] at hp
      simp only [Except.map] at hp
      have hlen : tvalLen r.1 = 0 := by
        cases hp' : r.1 <;> simp_all [Except.map]
      simp [get_sequence_entries_go, hr, ih', Bind.bind, Except.bind, hlen]

theorem gse_go_languages {t : Dict} {tr : List (EntryID × Rec)}
    {l1 l2 seq : List String} {lc : Bool} (pairs : List (Nat × Nat)) :
    get_sequence_entries_go ⟨t, tr, l1, lc⟩ seq pairs =
      get_sequence_entries_go ⟨t, tr, l2, lc⟩ seq pairs := by
  induction pairs with
  | nil => rfl
  | cons p rest ih =>
    obtain ⟨n, i⟩ := p
    simp only [get_sequence_entries_go]
    rw [show has_tree_entry ⟨t, tr, l1, lc⟩ (pySlice seq n i) =
          has_tree_entry ⟨t, tr, l2, lc⟩ (pySlice seq n i) from rfl, ih]

theorem flatten_entries_languages {t : Dict} {tr : List (EntryID × Rec)}
    {l1 l2 : List String} {lc : Bool}
    (entries : List (List String × (Nat × Nat) × List EntryID)) :
    flatten_entries ⟨t, tr, l1, lc⟩ entries =
      flatten_entries ⟨t, tr, l2, lc⟩ entries := by
  induction entries with
  | nil => rfl
  | cons e rest ih =>
    obtain ⟨syms, span, ids⟩ := e
    simp only [flatten_entries, ih]
    rfl

theorem geis_languages {t : Dict} {tr : List (EntryID × Rec)}
    {l1 l2 : List String} {lc : Bool} (seq : List String) :
    get_entries_in_sequence ⟨t, tr, l1, lc⟩ seq =
      get_entries_in_sequence ⟨t, tr, l2, lc⟩ seq := by
  simp only [get_entries_in_sequence, get_sequence_entries]
  rw [show caseFold ⟨t, tr, l1, lc⟩ seq = caseFold ⟨t, tr, l2, lc⟩ seq from rfl]
  rw [gse_go_languages]
  rcases get_sequence_entries_go (⟨t, tr, l2, lc⟩ : DT)
      (caseFold ⟨t, tr, l2, lc⟩ seq)
      (seqWindows (caseFold ⟨t, tr, l2, lc⟩ seq).length) with e | entries
  · rfl
  · simp only [Bind.bind, Except.bind]
    rw [show is_populated ⟨t, tr, l1, lc⟩ = is_populated ⟨t, tr, l2, lc⟩
          from rfl,
        flatten_entries_languages]

/-! ### Concrete fixtures

`trF`/`entriesF` is the running fixture: three entries over the two languages
`en` and `fr`, one translation value deliberately non-string, words written as
multi-symbol code sequences. -/

def trF : List (EntryID × Rec) :=
  [(.s "1", ⟨["c","a","t"], [("en", .s "cat"), ("fr", .s "chat")]⟩),
   (.s "2", ⟨["c","a","t","e"], [("en", .s "Category"), ("fr", .s "categorie")]⟩),
   (.s "3", ⟨["x","c","a","t"], [("en", .other), ("fr", .s "concat")]⟩)]

def entriesF : List (EntryID × List String) :=
  [(.s "1", ["c","a","t"]), (.s "2", ["c","a","t","e"]),
   (.s "3", ["x","c","a","t"])]

/-- The state `populate` builds from `entriesF`/`trF` (verified by the
`rfl`-proved population conjuncts of the theorems using it). -/
def stF : DT :=
  { tree :=
      [("c", .dict [("a", .dict [("t", .dict
          [("-1", .list [.s "1"]),
           ("e", .dict [("-1", .list [.s "2"])])])])]),
       ("x", .dict [("c", .dict [("a", .dict [("t", .dict
          [("-1", .list [.s "3"])])])])])],
    translations := trF,
    languages := ["en", "fr"],
    lowercase := true }

/-- Translations fixture with a single record keyed `"1"`. -/
def trAB : List (EntryID × Rec) :=
  [(.s "1", ⟨["a","b"], [("en", .s "x")]⟩)]

/-- State after `add_entry(("a","b"), "1")` on a fresh lowercase instance,
with `trAB` installed. -/
def stAB : DT :=
  { tree := [("a", .dict [("b", .dict [("-1", .list [.s "1"])])])],
    translations := trAB, languages := ["en"], lowercase := true }

/-- State after `add_entry(("a",), "1")` on a fresh lowercase instance, with
`trAB` installed. -/
def stA : DT :=
  { tree := [("a", .dict [("-1", .list [.s "1"])])],
    translations := trAB, languages := ["en"], lowercase := true }

/-- Entries fixture of claim C2: `a → 1`, `a b → 2`, `a b a → 3`. -/
def entriesABA : List (EntryID × List String) :=
  [(.i 1, ["a"]), (.i 2, ["a","b"]), (.i 3, ["a","b","a"])]

/-- Translations fixture matching `entriesABA`. -/
def trABA : List (EntryID × Rec) :=
  [(.i 1, ⟨["a"], [("en", .s "one")]⟩),
   (.i 2, ⟨["a","b"], [("en", .s "two")]⟩),
   (.i 3, ⟨["a","b","a"], [("en", .s "three")]⟩)]

/-- The state `populate` builds from `entriesABA`/`trABA`. -/
def stABA : DT :=
  { tree :=
      [("a", .dict
        [("-1", .list [.i 1]),
         ("b", .dict
           [("-1", .list [.i 2]),
            ("a", .dict [("-1", .list [.i 3])])])])],
    translations := trABA, languages := ["en"], lowercase := true }

/-- A store whose single translation record is keyed by the integer `5`. -/
def st9 : DT :=
  { tree := [("x", .dict [("-1", .list [.i 5])])],
    translations := [(.i 5, ⟨["x"], [("en", .s "five")]⟩)],
    languages := ["en"], lowercase := true }

/-! ### Claims -/

/-- **C1.** The claimed insert/lookup round trip fails on the code: after
inserting the two-symbol entry `("a","b")` under ID `"1"`, looking the same
sequence up returns the empty ID list (with matched symbol `"a"`), because
`has_tree_entry` returns during its first loop iteration and the first trie
node of `"a"` carries no terminator.  The validation half of the claim does
hold (empty entry and empty-string ID are both rejected), and a one-symbol
entry does round-trip. -/
theorem c1_round_trip_fails_at_ab :
    add_entry (init true) [] (.s "1") = .error .invalidEntry
  ∧ add_entry (init true) ["a"] (.s "") = .error .invalidEntryId
  ∧ add_entry (init true) ["a","b"] (.s "1") =
      .ok { init true with tree := stAB.tree }
  ∧ set_translations { init true with tree := stAB.tree } trAB = .ok stAB
  ∧ has_tree_entry stAB ["a","b"] = .ok (.list [], "a")
  ∧ add_entry (init true) ["a"] (.s "1") =
      .ok { init true with tree := stA.tree }
  ∧ has_tree_entry stA ["a"] = .ok (.list [.s "1"], "a") :=
  ⟨rfl, rfl, rfl, rfl, rfl, rfl, rfl⟩

/-- **C2.** Segmentation on the claimed fixture: with entries `a → 1`,
`a b → 2`, `a b a → 3` and input `["a","b","a"]`, the code records matches at
spans `(0,0)`, `(0,1)`, `(0,2)` and `(2,2)`, but every one of them carries ID
list `[1]` — the windows `a b` and `a b a` are attributed to entry `1`
instead of `2` and `3`, because the per-window lookup only examines the first
symbol. -/
theorem c2_segmentation_ids_wrong :
    populate (init true) entriesABA trABA = .ok stABA
  ∧ get_sequence_entries stABA ["a","b","a"] = .ok
      [(["a"], (0, 0), [.i 1]),
       (["a","b"], (0, 1), [.i 1]),
       (["a","b","a"], (0, 2), [.i 1]),
       (["a"], (2, 2), [.i 1])]
  ∧ has_tree_entry stABA ["a","b"] = .ok (.list [.i 1], "a") :=
  ⟨rfl, rfl, rfl⟩

/-- **C3.** Homograph stacking: inserting `"i1"` then `"i2"` under the
identical sequence `("a","b")` does stack both IDs, in insertion order, at the
terminator of the final node — but `lookup` of that same two-symbol sequence
returns the empty ID list, not `["i1","i2"]`, again because the lookup loop
returns during its first iteration.  On a one-symbol sequence the claimed
behaviour holds. -/
theorem c3_homograph_lookup_fails_at_ab :
    add_entry (init true) ["a","b"] (.s "i1") =
      .ok { init true with tree := [("a", .dict [("b", .dict
              [("-1", .list [.s "i1"])])])] }
  ∧ add_entry { init true with tree := [("a", .dict [("b", .dict
        [("-1", .list [.s "i1"])])])] } ["a","b"] (.s "i2") =
      .ok { init true with tree := [("a", .dict [("b", .dict
              [("-1", .list [.s "i1", .s "i2"])])])] }
  ∧ has_tree_entry
      { tree := [("a", .dict [("b", .dict [("-1", .list [.s "i1", .s "i2"])])])],
        translations := trAB, languages := ["en"], lowercase := true }
      ["a","b"] = .ok (.list [], "a")
  ∧ add_entry (init true) ["a"] (.s "i1") =
      .ok { init true with tree := [("a", .dict [("-1", .list [.s "i1"])])] }
  ∧ add_entry { init true with
        tree := [("a", .dict [("-1", .list [.s "i1"])])] } ["a"] (.s "i2") =
      .ok { init true with
            tree := [("a", .dict [("-1", .list [.s "i1", .s "i2"])])] }
  ∧ has_tree_entry
      { tree := [("a", .dict [("-1", .list [.s "i1", .s "i2"])])],
        translations := trAB, languages := ["en"], lowercase := true }
      ["a"] = .ok (.list [.s "i1", .s "i2"], "a") :=
  ⟨rfl, rfl, rfl, rfl, rfl, rfl⟩

/-- **C9.** Record retrieval: for a record stored under the integer key `5`,
the membership test `entry_id in self.translations` succeeds, but the access
`self.translations[str(entry_id)]` looks up the string `"5"` and raises an
uncaught `KeyError` instead of returning the stored record.  For string IDs
the claimed behaviour holds: a present ID returns its record, an absent one
returns the empty record, and the empty-string ID is rejected. -/
theorem c9_get_entry_int_key_raises :
    alhas st9.translations (.i 5) = true
  ∧ get_entry st9 (.i 5) = .error .keyError
  ∧ get_entry stF (.s "1") =
      .ok (some ⟨["c","a","t"], [("en", .s "cat"), ("fr", .s "chat")]⟩)
  ∧ get_entry stF (.s "9") = .ok none
  ∧ get_entry stF (.s "") = .error .invalidEntryId :=
  ⟨rfl, rfl, rfl, rfl, rfl⟩

/-- **C10.** A lookup examines only the first symbol: on any state,
`has_tree_entry` applied to `a :: rest` is identical — ID list and
matched-symbol component alike — to `has_tree_entry` applied to `[a]`,
because every control path of the source loop body returns during the first
iteration; no trie node below depth one is consulted. -/
theorem c10_lookup_first_symbol_only (st : DT) (a : String)
    (rest : List String) :
    has_tree_entry st (a :: rest) = has_tree_entry st [a] := rfl

/-- **C4, counterexample.** For the three-entry, two-language fixture, the
populated instance answers a translation search, but after `serialize`
followed by `deserialize` into a fresh instance the identical call fails with
the unsupported-language error: `deserialize` restores `tree` and
`translations` but leaves the fresh instance's `languages` empty, so the
persistence round trip does not reproduce translation-search results. -/
theorem c4_counterexample :
    populate (init true) entriesF trF = .ok stF
  ∧ serialize stF "dict.json" = .ok ⟨stF.tree, stF.translations⟩
  ∧ deserialize (init true) (jsonRoundTrip ⟨stF.tree, stF.translations⟩) =
      { tree := stF.tree, translations := stF.translations,
        languages := [], lowercase := true }
  ∧ get_glyph_words stF "cat" "en" =
      .ok [⟨["c","a","t"], [("en", .s "cat"), ("fr", .s "chat")]⟩,
           ⟨["c","a","t","e"], [("en", .s "Category"), ("fr", .s "categorie")]⟩]
  ∧ get_glyph_words
      { tree := stF.tree, translations := stF.translations,
        languages := [], lowercase := true } "cat" "en" =
      .error .unsupportedLanguage :=
  ⟨rfl, rfl, rfl, rfl, rfl⟩

/-- **C4, amended.** Save followed by load into a fresh instance reproduces
identical `lookup`, `segment` and word-search results (those operations read
only `tree`, `translations` and `lowercase`, all of which survive the round
trip for string-keyed stores), but translation search on the loaded instance
fails with the unsupported-language error for every language and every
non-empty term, because `deserialize` does not restore the supported-language
set — only `set_translations` derives it. -/
theorem c4_persistence_round_trip_amended (st : DT) (fn : String)
    (doc : Document)
    (hlc : st.lowercase = true)
    (hkeys : ∀ kv ∈ st.translations, strId kv.1 = kv.1)
    (hfn : fn ≠ "")
    (hser : serialize st fn = .ok doc) :
    deserialize (init true) (jsonRoundTrip doc) =
      { tree := st.tree, translations := st.translations, languages := [],
        lowercase := true }
  ∧ (∀ seq, has_tree_entry (deserialize (init true) (jsonRoundTrip doc)) seq
       = has_tree_entry st seq)
  ∧ (∀ seq, get_entries_in_sequence
       (deserialize (init true) (jsonRoundTrip doc)) seq
       = get_entries_in_sequence st seq)
  ∧ (∀ seq m, get_entries_containing_sequence
       (deserialize (init true) (jsonRoundTrip doc)) seq m
       = get_entries_containing_sequence st seq m)
  ∧ (∀ term lang, is_populated st = true → term ≠ "" →
       get_glyph_words (deserialize (init true) (jsonRoundTrip doc)) term lang
         = .error .unsupportedLanguage) := by
  have hdoc : doc = ⟨st.tree, st.translations⟩ := by
    rw [serialize, if_neg (strLength_ne_zero hfn)] at hser
    exact (Except.ok.injEq _ _).mp hser.symm
  subst hdoc
  have hmap : st.translations.map (fun kv => (strId kv.1, kv.2)) =
      st.translations := by
    conv_rhs => rw [← List.map_id st.translations]
    exact List.map_congr_left fun kv hkv => by simp [hkeys kv hkv]
  obtain ⟨t, tr, langs, lc⟩ := st
  simp only at hlc hmap
  subst hlc
  have hds : deserialize (init true)
      (jsonRoundTrip ⟨t, tr⟩) = (⟨t, tr, [], true⟩ : DT) := by
    simp only [deserialize, jsonRoundTrip, hmap]
    rfl
  rw [hds]
  refine ⟨rfl, fun seq => rfl, fun seq => geis_languages seq,
    fun seq m => rfl, ?_⟩
  intro term lang hpop hterm
  have h1 : ¬((!is_populated (⟨t, tr, [], true⟩ : DT)) = true) := by
    simp only [show is_populated (⟨t, tr, [], true⟩ : DT) =
      is_populated (⟨t, tr, langs, true⟩ : DT) from rfl, hpop]
    simp
  simp only [get_glyph_words]
  rw [if_neg h1, if_neg (strLength_ne_zero hterm)]
  rfl

/-- Witness for C4: the amended round-trip behaviour at the concrete
fixture. -/
theorem c4_witness :
    deserialize (init true) (jsonRoundTrip ⟨stF.tree, stF.translations⟩) =
      { tree := stF.tree, translations := stF.translations, languages := [],
        lowercase := true }
  ∧ get_glyph_words (deserialize (init true)
      (jsonRoundTrip ⟨stF.tree, stF.translations⟩)) "cat" "en" =
      .error .unsupportedLanguage :=
  ⟨(c4_persistence_round_trip_amended stF "dict.json"
      ⟨stF.tree, stF.translations⟩ rfl (by decide) (by decide) rfl).1,
   (c4_persistence_round_trip_amended stF "dict.json"
      ⟨stF.tree, stF.translations⟩ rfl (by decide) (by decide) rfl).2.2.2.2
     "cat" "en" (by decide) (by decide)⟩

/-- **C5.** Search-mode semantics of `__search_words` /
`get_entries_containing_sequence`: an ID is returned in `exact` mode iff its
record's case-folded word equals the case-folded query, in `starts_with` mode
iff the word's prefix of the query's length equals the query, in `contains`
mode iff the query is a contiguous sub-window (infix) of the word; and every
mode outside the three is rejected with the validation error (population and
sequence validation are checked first by the public method). -/
theorem c5_search_mode_semantics (st : DT) (sequence : List String)
    (key : EntryID) (mtch : String) :
    (key ∈ search_words st sequence "exact" ↔
       ∃ r, (key, r) ∈ st.translations ∧
         r.word.map lowerS = sequence.map lowerS)
  ∧ (key ∈ search_words st sequence "starts_with" ↔
       ∃ r, (key, r) ∈ st.translations ∧
         (r.word.map lowerS).take sequence.length = sequence.map lowerS)
  ∧ (key ∈ search_words st sequence "contains" ↔
       ∃ r, (key, r) ∈ st.translations ∧
         sequence.map lowerS <:+: r.word.map lowerS)
  ∧ (is_populated st = true → sequence ≠ [] →
       mtch ≠ "exact" → mtch ≠ "starts_with" → mtch ≠ "contains" →
       get_entries_containing_sequence st sequence mtch =
         .error .invalidMatchMode) := by
  refine ⟨?_, ?_, ?_, ?_⟩
  · rw [search_words, mem_search_words_exact]
    simp [eq_comm]
  · rw [search_words, mem_search_words_starts]
    simp [eq_comm, List.length_map]
  · rw [search_words, mem_search_words_contains]
  · intro hpop hseq h1 h2 h3
    simp [get_entries_containing_sequence, hpop, hseq, h1, h2, h3,
      List.isEmpty_iff]

/-- Witness for C5: the three modes and the invalid-mode error at the
concrete fixture, with a case-folded query. -/
theorem c5_witness :
    ((.s "1" : EntryID) ∈ search_words stF ["C","A","T"] "exact")
  ∧ ((.s "2" : EntryID) ∈ search_words stF ["C","A","T"] "starts_with")
  ∧ ((.s "3" : EntryID) ∈ search_words stF ["c","a","t"] "contains")
  ∧ get_entries_containing_sequence stF ["c"] "bogus" =
      .error .invalidMatchMode :=
  ⟨(c5_search_mode_semantics stF ["C","A","T"] (.s "1") "bogus").1.mpr
     ⟨⟨["c","a","t"], [("en", .s "cat"), ("fr", .s "chat")]⟩,
      by decide, by decide⟩,
   (c5_search_mode_semantics stF ["C","A","T"] (.s "2") "bogus").2.1.mpr
     ⟨⟨["c","a","t","e"], [("en", .s "Category"), ("fr", .s "categorie")]⟩,
      by decide, by decide⟩,
   (c5_search_mode_semantics stF ["c","a","t"] (.s "3") "bogus").2.2.1.mpr
     ⟨⟨["x","c","a","t"], [("en", .other), ("fr", .s "concat")]⟩,
      by decide, ⟨["x"], [], by decide⟩⟩,
   (c5_search_mode_semantics stF ["c"] (.s "1") "bogus").2.2.2
     (by decide) (by decide) (by decide) (by decide) (by decide)⟩

/-- **C6, counterexample.** The translation-search claim as stated fails for
the empty term on a populated store: `get_glyph_words` checks
`len(term) == 0` before `lang not in self.languages`, so with the
uninstalled language `de` the empty term raises the empty-term validation
error, not the claimed UnsupportedLanguageError, and with the installed
language `en` it also raises instead of returning the records whose string
contains the empty term (every string contains it — the claim would require
the two string-valued records). -/
theorem c6_counterexample :
    get_glyph_words stF "" "de" = .error .emptyTerm
  ∧ get_glyph_words stF "" "en" = .error .emptyTerm
  ∧ get_glyph_words stF "" "de" ≠ .error .unsupportedLanguage
  ∧ get_glyph_words stF "" "en" ≠
      .ok [⟨["c","a","t"], [("en", .s "cat"), ("fr", .s "chat")]⟩,
           ⟨["c","a","t","e"], [("en", .s "Category"), ("fr", .s "categorie")]⟩] :=
  ⟨rfl, rfl, by decide, by decide⟩

/-- **C6, amended.** Translation-search contract of `get_glyph_words` for a
non-empty term: an unsupported language is rejected with the
unsupported-language error; for a supported language (and records that each
carry a value for it, which is the spec's stated shared-key-set invariant)
the result is exactly the records whose translation string for the language
contains the term case-insensitively, records with a non-string value being
silently skipped.  For the empty term the empty-term validation error is
raised before the language check, whatever the language. -/
theorem c6_translation_search_contract (st : DT) (term lang : String) :
    (is_populated st = true → term ≠ "" → lang ∉ st.languages →
       get_glyph_words st term lang = .error .unsupportedLanguage)
  ∧ (is_populated st = true → term ≠ "" → lang ∈ st.languages →
       (∀ kv ∈ st.translations,
         (alget kv.2.translations lang).isSome = true) →
       get_glyph_words st term lang = .ok (st.translations.filterMap fun kv =>
         match alget kv.2.translations lang with
         | some (TrVal.s str) =>
             if (lowerS term).data <:+: (lowerS str).data then some kv.2
             else none
         | _ => none))
  ∧ (is_populated st = true → term = "" →
       get_glyph_words st term lang = .error .emptyTerm) := by
  refine ⟨?_, ?_, ?_⟩
  · intro hpop hterm hlang
    have hlen := strLength_ne_zero hterm
    simp [get_glyph_words, hpop, hlen, hlang]
  · intro hpop hterm hlang hkeys
    have hlen := strLength_ne_zero hterm
    have hgo := @search_translations_go_eq term lang st.translations hkeys
    have h1 : ¬((!is_populated st) = true) := by simp [hpop]
    have h3 : ¬((!st.languages.contains lang) = true) := by simp [hlang]
    simp only [get_glyph_words]
    rw [if_neg h1, if_neg hlen, if_neg h3, search_translations, hgo]
    refine congrArg Except.ok (List.filterMap_congr fun kv hkv => ?_)
    cases halg : alget kv.2.translations lang with
    | none => rfl
    | some w =>
      cases w with
      | other => rfl
      | s str => exact if_congr (strIn_iff_subseq _ _) rfl rfl
  · intro hpop hterm
    subst hterm
    simp [get_glyph_words, hpop]

/-- Witness for C6: at the fixture, the non-empty term `cat` in language `en`
finds the two records whose `en` string contains it (the third record's
non-string `en` value is skipped), the uninstalled language `de` is rejected,
and the empty term raises the empty-term error ahead of the language check. -/
theorem c6_witness :
    get_glyph_words stF "cat" "en" =
      .ok [⟨["c","a","t"], [("en", .s "cat"), ("fr", .s "chat")]⟩,
           ⟨["c","a","t","e"], [("en", .s "Category"), ("fr", .s "categorie")]⟩]
  ∧ get_glyph_words stF "cat" "de" = .error .unsupportedLanguage
  ∧ get_glyph_words stF "" "fr" = .error .emptyTerm :=
  ⟨((c6_translation_search_contract stF "cat" "en").2.1 (by decide) (by decide)
      (by decide) (by decide)).trans (by decide),
   (c6_translation_search_contract stF "cat" "de").1 (by decide) (by decide)
     (by decide),
   (c6_translation_search_contract stF "" "fr").2.2 (by decide) rfl⟩

/-- **C7.** Install contract of `set_translations` (and the corresponding
validation of `populate`): an empty mapping is rejected with the validation
error before any mutation, so the stored translations and language set are
unchanged; a non-empty mapping is installed in one step, the language set
being the key list of the first record's `translations` dict, the `tree` and
`lowercase` attributes untouched. -/
theorem c7_install_contract (st : DT) (tr : List (EntryID × Rec))
    (entries : List (EntryID × List String)) :
    (set_translations st [] = .error .invalidTranslations)
  ∧ (∀ k0 r0 rest, tr = (k0, r0) :: rest →
       set_translations st tr =
         .ok { st with languages := r0.translations.map Prod.fst,
                       translations := tr })
  ∧ (populate st [] tr = .error .invalidEntries)
  ∧ (entries ≠ [] → populate st entries [] = .error .invalidTranslations) := by
  refine ⟨rfl, ?_, rfl, ?_⟩
  · rintro k0 r0 rest rfl
    simp [set_translations, alget]
  · intro h
    simp [populate, List.isEmpty_iff, h]

/-- Witness for C7: installing the fixture derives the language set
`["en","fr"]` from the first record, and `populate` with empty translations
is rejected. -/
theorem c7_witness :
    set_translations (init true) trF =
      .ok { init true with languages := ["en", "fr"], translations := trF }
  ∧ populate (init true) entriesF [] = .error .invalidTranslations :=
  ⟨(c7_install_contract (init true) trF entriesF).2.1
     (.s "1") ⟨["c","a","t"], [("en", .s "cat"), ("fr", .s "chat")]⟩
     [(.s "2", ⟨["c","a","t","e"],
        [("en", .s "Category"), ("fr", .s "categorie")]⟩),
      (.s "3", ⟨["x","c","a","t"],
        [("en", .other), ("fr", .s "concat")]⟩)] rfl,
   (c7_install_contract (init true) trF entriesF).2.2.2 (by decide)⟩

/-- **C8.** Segmentation error cases of `get_entries_in_sequence`: an
unpopulated store (empty trie or empty translations) is rejected with the
empty-index error, which is checked before the sequence; on a populated store
the empty sequence is rejected with the invalid-input error; and on a
populated store whose input admits no matching window — every window's lookup
carrying an empty ID list — the result is the empty list, not an error. -/
theorem c8_segmentation_error_cases (st : DT) (sequence : List String) :
    (is_populated st = false →
       get_entries_in_sequence st sequence = .error .emptyIndex)
  ∧ (is_populated st = true → sequence = [] →
       get_entries_in_sequence st sequence = .error .invalidSequence)
  ∧ (is_populated st = true → sequence ≠ [] →
       (∀ p ∈ seqWindows (caseFold st sequence).length,
         (has_tree_entry st (pySlice (caseFold st sequence) p.1 p.2)).map
           (fun r => tvalLen r.1) = .ok 0) →
       get_entries_in_sequence st sequence = .ok []) := by
  refine ⟨?_, ?_, ?_⟩
  · intro hpop
    simp [get_entries_in_sequence, hpop]
  · intro hpop hseq
    subst hseq
    simp [get_entries_in_sequence, hpop]
  · intro hpop hseq hwin
    have h1 : ¬((!is_populated st) = true) := by simp [hpop]
    have h2 : ¬(sequence.isEmpty = true) := by simp [List.isEmpty_iff, hseq]
    simp only [get_entries_in_sequence]
    rw [if_neg h1, if_neg h2]
    rw [show get_sequence_entries st (caseFold st sequence) =
          get_sequence_entries_go st (caseFold st sequence)
            (seqWindows (caseFold st sequence).length) from rfl]
    rw [gse_go_ok_nil hwin]
    rfl

/-- Witness for C8: the empty-index error on a fresh instance, the
invalid-input error on the populated fixture with an empty sequence, and the
empty result (no error) on the fixture with a symbol that matches nothing. -/
theorem c8_witness :
    get_entries_in_sequence (init true) ["a"] = .error .emptyIndex
  ∧ get_entries_in_sequence stF [] = .error .invalidSequence
  ∧ get_entries_in_sequence stF ["q"] = .ok [] :=
  ⟨(c8_segmentation_error_cases (init true) ["a"]).1 rfl,
   (c8_segmentation_error_cases stF []).2.1 rfl rfl,
   (c8_segmentation_error_cases stF ["q"]).2.2 rfl (by decide) (by decide)⟩

end DictTree
